import Mathlib

/-!
Verification development for the AI plan/recommendation generation pipeline of
`backend/src/services/aiService.ts` (travel-planning web application).

The TypeScript source is shallowly embedded: JavaScript strings are `String`
(lists of characters; `String.prototype.length` is modelled as code-point
count, adequate for the properties below which only involve BMP characters),
JavaScript numbers are exact rationals `ℚ` (the source only multiplies a
budget by 0.3/0.4/0.2/0.1 and rounds; the counterexamples below were checked
to coincide with IEEE-double evaluation), thrown exceptions are modelled by
`Except String` carrying the `Error.message` of the thrown error, and
`JSON.parse` is embedded as a strict fuel-based JSON reader producing the
`JValue` inductive.  The outcome of the single network call
(`model.generateContent(...).response.text()`) and the `GEMINI_API_KEY`
environment variable are inputs of the embedding (`Env`).
-/

/- ## Basic character / list-of-characters utilities -/

/-- The backtick character (written via its code point). -/
def backtickCh : Char := Char.ofNat 96

/-- Opening brace character `\x7b`. -/
def lbraceCh : Char := Char.ofNat 123

/-- Closing brace character `\x7d`. -/
def rbraceCh : Char := Char.ofNat 125

/-- Opening bracket character. -/
def lbrackCh : Char := Char.ofNat 91

/-- Closing bracket character. -/
def rbrackCh : Char := Char.ofNat 93

/-- Does the character list `s` start with the pattern `pat`? -/
def startsWithL : List Char → List Char → Bool
  | [], _ => true
  | _ :: _, [] => false
  | p :: ps, c :: cs => p == c && startsWithL ps cs

/-- Substring test on character lists: does `s` contain `pat` as a contiguous
substring?  This embeds `String.prototype.includes` (case-sensitive). -/
def hasSubL (pat : List Char) : List Char → Bool
  | [] => pat.isEmpty
  | c :: cs => startsWithL pat (c :: cs) || hasSubL pat cs

/-- Strip the exact pattern `pat` from the front of `s`; `some rest` on
success, `none` if `s` does not start with `pat`. -/
def dropPre : List Char → List Char → Option (List Char)
  | [], s => some s
  | _ :: _, [] => none
  | p :: ps, c :: cs => if p == c then dropPre ps cs else none

/-- Leftmost split of `s` at the first occurrence of `pat`:
`some (before, after)` with `s = before ++ pat ++ after` and no occurrence of
`pat` starting earlier; `none` when `pat` does not occur in `s`. -/
def splitFirstL (pat : List Char) : List Char → Option (List Char × List Char)
  | [] =>
    match dropPre pat [] with
    | some r => some ([], r)
    | none => none
  | c :: cs =>
    match dropPre pat (c :: cs) with
    | some rest => some ([], rest)
    | none =>
      match splitFirstL pat cs with
      | some (pre, post) => some (c :: pre, post)
      | none => none

/-- JavaScript `\s` (the regex whitespace class): ASCII whitespace, NBSP, the
Unicode space separators, line/paragraph separators and the BOM. -/
def isJsWs (c : Char) : Bool :=
  c == ' ' || c == '\t' || c == '\n' || c == '\r' ||
  c.val == 0x0b || c.val == 0x0c || c.val == 0xa0 || c.val == 0x1680 ||
  (0x2000 ≤ c.val && c.val ≤ 0x200a) || c.val == 0x2028 || c.val == 0x2029 ||
  c.val == 0x202f || c.val == 0x205f || c.val == 0x3000 || c.val == 0xfeff

/-- `.replace(/\s/g, '')`: remove every JS-whitespace character. -/
def stripWs (s : String) : String := ⟨s.data.filter (fun c => !isJsWs c)⟩

/-- Drop leading and trailing JS-whitespace (the effect of the greedy `\s*`
groups around the lazy capture in the fenced-code-block regex). -/
def trimJsWs (s : List Char) : List Char :=
  ((s.dropWhile isJsWs).reverse.dropWhile isJsWs).reverse

/-- `s.includes(sub)` of JavaScript: substring containment. -/
def includesStr (s sub : String) : Bool := hasSubL sub.data s.data

/-- `s.startsWith(p)` of JavaScript. -/
def jsStartsWith (s p : String) : Bool := startsWithL p.data s.data

/-- Digit character for a value `< 10`. -/
def toDigitChar (n : Nat) : Char := Char.ofNat (48 + n)

/-- Accumulator loop producing the decimal digits of `n` (fuel-based so that
it is structurally recursive and kernel-reducible). -/
def natDigitsGo : Nat → Nat → List Char → List Char
  | 0, _, acc => acc
  | fuel + 1, n, acc =>
    if n < 10 then toDigitChar n :: acc
    else natDigitsGo fuel (n / 10) (toDigitChar (n % 10) :: acc)

/-- Decimal representation of a natural number, used for the JavaScript
string keys of array/string index properties. -/
def natDigitStr (n : Nat) : String := ⟨natDigitsGo (n + 1) n []⟩

/-- Is `c` a decimal digit? -/
def isDigitCh (c : Char) : Bool := 48 ≤ c.val && c.val ≤ 57

/-- Numeric value of a list of decimal digits. -/
def digitsToNat (cs : List Char) : Nat :=
  cs.foldl (fun a c => a * 10 + (c.toNat - 48)) 0

/-- Canonical array-index reading of a property key, as used by JavaScript
string/array indexing: a non-empty all-digit string without a superfluous
leading zero. -/
def toCanonicalIndex (k : String) : Option Nat :=
  match k.data with
  | [] => none
  | c :: cs =>
    if (c :: cs).all isDigitCh then
      if c == toDigitChar 0 && cs ≠ [] then none
      else some (digitsToNat (c :: cs))
    else none

/-- `Array.prototype.join(sep)` / template-literal joining of a string list. -/
def joinSep (sep : String) : List String → String
  | [] => ""
  | [x] => x
  | x :: y :: xs => x ++ sep ++ joinSep sep (y :: xs)

/- ## JSON values and a strict JSON reader (the embedding of `JSON.parse`) -/

/-- Parsed JSON values.  Object fields are kept in insertion order (as
JavaScript objects do); numbers are exact rationals. -/
inductive JValue where
  | null : JValue
  | bool : Bool → JValue
  | num : ℚ → JValue
  | str : String → JValue
  | arr : List JValue → JValue
  | obj : List (String × JValue) → JValue

/-- First-occurrence lookup in an ordered field list. -/
def lookupF : List (String × JValue) → String → Option JValue
  | [], _ => none
  | (k, v) :: fs, key => if k == key then some v else lookupF fs key

/-- JavaScript object-literal field update: if the key is already present its
value is updated in place (position preserved), otherwise the field is
appended at the end. -/
def setField : List (String × JValue) → String → JValue → List (String × JValue)
  | [], key, v => [(key, v)]
  | p :: ps, key, v => if p.1 == key then (key, v) :: ps else p :: setField ps key v

/-- JSON whitespace accepted between tokens by `JSON.parse`. -/
def skipJWs (s : List Char) : List Char :=
  s.dropWhile (fun c => c == ' ' || c == '\t' || c == '\n' || c == '\r')

/-- Hexadecimal digit value. -/
def hexVal (c : Char) : Option Nat :=
  if 48 ≤ c.val && c.val ≤ 57 then some (c.toNat - 48)
  else if 97 ≤ c.val && c.val ≤ 102 then some (c.toNat - 87)
  else if 65 ≤ c.val && c.val ≤ 70 then some (c.toNat - 55)
  else none

/-- Read the body of a JSON string literal (after the opening quote), with
the JSON escape sequences.  `\uXXXX` code units are taken as code points
(surrogate pairs are not recombined; no property below depends on them).
Returns the decoded characters and the input remaining after the closing
quote.  Fuel-based to stay structurally recursive. -/
def parseStrF : Nat → List Char → Except String (List Char × List Char)
  | 0, _ => Except.error "Unterminated string in JSON"
  | fuel + 1, s =>
    match s with
    | [] => Except.error "Unterminated string in JSON"
    | c :: rest =>
      if c == '"' then Except.ok ([], rest)
      else if c == '\\' then
        match rest with
        | [] => Except.error "Unterminated string in JSON"
        | e :: rest2 =>
          if e == 'u' then
            match rest2 with
            | h1 :: h2 :: h3 :: h4 :: rest6 =>
              match hexVal h1, hexVal h2, hexVal h3, hexVal h4 with
              | some a, some b, some c3, some d =>
                match parseStrF fuel rest6 with
                | Except.ok (cs, r) =>
                  Except.ok (Char.ofNat (((a * 16 + b) * 16 + c3) * 16 + d) :: cs, r)
                | Except.error m => Except.error m
              | _, _, _, _ => Except.error "Bad Unicode escape in JSON"
            | _ => Except.error "Bad Unicode escape in JSON"
          else
            match
              (if e == '"' then some '"'
               else if e == '\\' then some '\\'
               else if e == '/' then some '/'
               else if e == 'b' then some (Char.ofNat 8)
               else if e == 'f' then some (Char.ofNat 12)
               else if e == 'n' then some '\n'
               else if e == 'r' then some '\r'
               else if e == 't' then some '\t'
               else none) with
            | some ec =>
              match parseStrF fuel rest2 with
              | Except.ok (cs, r) => Except.ok (ec :: cs, r)
              | Except.error m => Except.error m
            | none => Except.error "Bad escaped character in JSON"
      else if c.val < 32 then Except.error "Bad control character in JSON string"
      else
        match parseStrF fuel rest with
        | Except.ok (cs, r) => Except.ok (c :: cs, r)
        | Except.error m => Except.error m

/-- Read a JSON number (strict grammar: `-? int frac? exp?`, no leading `+`,
no superfluous leading zero, non-empty digit runs), returning its exact
rational value. -/
def parseNumF (s : List Char) : Except String (ℚ × List Char) :=
  let (neg, s1) :=
    match s with
    | c :: rest => if c == '-' then (true, rest) else (false, s)
    | [] => (false, s)
  match s1.span isDigitCh with
  | (intDs, s2) =>
    if intDs.isEmpty then Except.error "Unexpected token in JSON number"
    else if intDs.length > 1 && intDs.head? == some (toDigitChar 0) then
      Except.error "Leading zero in JSON number"
    else
      let (fracDs, s3) :=
        match s2 with
        | c :: rest =>
          if c == '.' then rest.span isDigitCh else ([], s2)
        | [] => ([], s2)
      let hadFrac := match s2 with
        | c :: _ => c == '.'
        | [] => false
      if hadFrac && fracDs.isEmpty then Except.error "Missing digits after decimal point in JSON"
      else
        let (expSign, expDs, s4) :=
          match s3 with
          | c :: rest =>
            if c == 'e' || c == 'E' then
              match rest with
              | c2 :: rest2 =>
                if c2 == '-' then
                  match rest2.span isDigitCh with
                  | (ds, r) => (true, ds, r)
                else if c2 == '+' then
                  match rest2.span isDigitCh with
                  | (ds, r) => (false, ds, r)
                else
                  match rest.span isDigitCh with
                  | (ds, r) => (false, ds, r)
              | [] => (false, ([] : List Char), rest)
            else (false, ([] : List Char), s3)
          | [] => (false, ([] : List Char), s3)
        let hadExp := match s3 with
          | c :: _ => c == 'e' || c == 'E'
          | [] => false
        if hadExp && expDs.isEmpty then Except.error "Missing digits in JSON exponent"
        else
          let mantissa : ℚ := (digitsToNat (intDs ++ fracDs) : ℚ) / (10 : ℚ) ^ fracDs.length
          let scaled : ℚ :=
            if hadExp then
              if expSign then mantissa / (10 : ℚ) ^ digitsToNat expDs
              else mantissa * (10 : ℚ) ^ digitsToNat expDs
            else mantissa
          Except.ok ((if neg then -scaled else scaled), s4)

/-- Parsing modes of the JSON reader: a single value, the inside of an array
(just after `[` / just after a comma respectively), and the inside of an
object. -/
inductive PK where
  | val : PK
  | arrStart : PK
  | arrRest : PK
  | objStart : PK
  | objRest : PK

/-- Result type of each parsing mode. -/
def POut : PK → Type
  | PK.val => JValue
  | PK.arrStart => List JValue
  | PK.arrRest => List JValue
  | PK.objStart => List (String × JValue)
  | PK.objRest => List (String × JValue)

/-- One JSON object member: `"key" : value`.  Returns the pair and the rest
of the input.  Defined via the string reader and a value continuation is
inlined in `parseF` below. -/
def jsonViaPairs (pairs : List (String × JValue)) : JValue :=
  JValue.obj (pairs.foldl (fun fs p => setField fs p.1 p.2) [])

/-- The strict JSON reader, structurally recursive on its fuel so that all
concrete invocations reduce by `rfl`/`decide`.  Mirrors `JSON.parse`'s
grammar; error messages are non-empty human-readable strings standing for
the engine's `SyntaxError.message`. -/
def parseF : (fuel : Nat) → (k : PK) → List Char → Except String (POut k × List Char)
  | 0, _, _ => Except.error "JSON input too deeply nested"
  | fuel + 1, PK.val, s =>
    match skipJWs s with
    | [] => Except.error "Unexpected end of JSON input"
    | c :: rest =>
      if c == lbraceCh then
        match parseF fuel PK.objStart rest with
        | Except.ok (pairs, r) => Except.ok (jsonViaPairs pairs, r)
        | Except.error m => Except.error m
      else if c == lbrackCh then
        match parseF fuel PK.arrStart rest with
        | Except.ok (xs, r) => Except.ok (JValue.arr xs, r)
        | Except.error m => Except.error m
      else if c == '"' then
        match parseStrF (rest.length + 1) rest with
        | Except.ok (cs, r) => Except.ok (JValue.str ⟨cs⟩, r)
        | Except.error m => Except.error m
      else if c == 't' then
        match dropPre "true".data (c :: rest) with
        | some r => Except.ok (JValue.bool true, r)
        | none => Except.error "Unexpected token in JSON"
      else if c == 'f' then
        match dropPre "false".data (c :: rest) with
        | some r => Except.ok (JValue.bool false, r)
        | none => Except.error "Unexpected token in JSON"
      else if c == 'n' then
        match dropPre "null".data (c :: rest) with
        | some r => Except.ok (JValue.null, r)
        | none => Except.error "Unexpected token in JSON"
      else if c == '-' || isDigitCh c then
        match parseNumF (c :: rest) with
        | Except.ok (q, r) => Except.ok (JValue.num q, r)
        | Except.error m => Except.error m
      else Except.error "Unexpected token in JSON"
  | fuel + 1, PK.arrStart, s =>
    match skipJWs s with
    | [] => Except.error "Unexpected end of JSON input"
    | c :: rest =>
      if c == rbrackCh then Except.ok ([], rest)
      else
        match parseF fuel PK.val (c :: rest) with
        | Except.ok (v, r) =>
          match parseF fuel PK.arrRest r with
          | Except.ok (vs, r2) => Except.ok (v :: vs, r2)
          | Except.error m => Except.error m
        | Except.error m => Except.error m
  | fuel + 1, PK.arrRest, s =>
    match skipJWs s with
    | [] => Except.error "Unexpected end of JSON input"
    | c :: rest =>
      if c == rbrackCh then Except.ok ([], rest)
      else if c == ',' then
        match parseF fuel PK.val rest with
        | Except.ok (v, r) =>
          match parseF fuel PK.arrRest r with
          | Except.ok (vs, r2) => Except.ok (v :: vs, r2)
          | Except.error m => Except.error m
        | Except.error m => Except.error m
      else Except.error "Expected comma or closing bracket in JSON array"
  | fuel + 1, PK.objStart, s =>
    match skipJWs s with
    | [] => Except.error "Unexpected end of JSON input"
    | c :: rest =>
      if c == rbraceCh then Except.ok ([], rest)
      else if c == '"' then
        match parseStrF (rest.length + 1) rest with
        | Except.ok (kcs, r) =>
          match skipJWs r with
          | c2 :: r2 =>
            if c2 == ':' then
              match parseF fuel PK.val r2 with
              | Except.ok (v, r3) =>
                match parseF fuel PK.objRest r3 with
                | Except.ok (ps, r4) => Except.ok ((⟨kcs⟩, v) :: ps, r4)
                | Except.error m => Except.error m
              | Except.error m => Except.error m
            else Except.error "Expected colon in JSON object"
          | [] => Except.error "Unexpected end of JSON input"
        | Except.error m => Except.error m
      else Except.error "Expected property name in JSON object"
  | fuel + 1, PK.objRest, s =>
    match skipJWs s with
    | [] => Except.error "Unexpected end of JSON input"
    | c :: rest =>
      if c == rbraceCh then Except.ok ([], rest)
      else if c == ',' then
        match skipJWs rest with
        | c2 :: r =>
          if c2 == '"' then
            match parseStrF (r.length + 1) r with
            | Except.ok (kcs, r2) =>
              match skipJWs r2 with
              | c3 :: r3 =>
                if c3 == ':' then
                  match parseF fuel PK.val r3 with
                  | Except.ok (v, r4) =>
                    match parseF fuel PK.objRest r4 with
                    | Except.ok (ps, r5) => Except.ok ((⟨kcs⟩, v) :: ps, r5)
                    | Except.error m => Except.error m
                  | Except.error m => Except.error m
                else Except.error "Expected colon in JSON object"
              | [] => Except.error "Unexpected end of JSON input"
            | Except.error m => Except.error m
          else Except.error "Expected property name in JSON object"
        | [] => Except.error "Unexpected end of JSON input"
      else Except.error "Expected comma or closing brace in JSON object"

/-- The embedding of `JSON.parse`: reads one JSON value and requires the rest
of the input to be whitespace. -/
def jsonParse (text : String) : Except String JValue :=
  match parseF (2 * text.data.length + 2) PK.val text.data with
  | Except.ok (v, rest) =>
    if (skipJWs rest).isEmpty then Except.ok v
    else Except.error "Unexpected non-whitespace character after JSON data"
  | Except.error m => Except.error m

/- ## JavaScript value semantics used by the recommendation filter/map -/

/-- Own enumerable string-keyed properties contributed by object spread
(`\x7b...rec\x7d`): an object's fields; the index properties of a string or
an array (`length` is an own but non-enumerable property and is not copied);
nothing for the other primitives (and for `null`, whose spread is legal and
empty). -/
def indexKeyedFrom : Nat → List JValue → List (String × JValue)
  | _, [] => []
  | i, v :: vs => (natDigitStr i, v) :: indexKeyedFrom (i + 1) vs

/-- Spread fields of a value, in JavaScript property order. -/
def jsSpreadFields : JValue → List (String × JValue)
  | JValue.obj fs => fs
  | JValue.str s => indexKeyedFrom 0 (s.data.map (fun c => JValue.str ⟨[c]⟩))
  | JValue.arr xs => indexKeyedFrom 0 xs
  | _ => []

/-- Property access on a non-`null` value (`undefined` is `none`): objects by
field lookup; strings and arrays additionally expose `length` and their
canonical index properties; other primitives have no relevant properties. -/
def jsMemberOpt : JValue → String → Option JValue
  | JValue.obj fs, k => lookupF fs k
  | JValue.str s, k =>
    if k == "length" then some (JValue.num s.data.length)
    else
      match toCanonicalIndex k with
      | some i =>
        match s.data.drop i with
        | c :: _ => some (JValue.str ⟨[c]⟩)
        | [] => none
      | none => none
  | JValue.arr xs, k =>
    if k == "length" then some (JValue.num xs.length)
    else
      match toCanonicalIndex k with
      | some i =>
        match xs.drop i with
        | v :: _ => some v
        | [] => none
      | none => none
  | _, _ => none

/-- Property access `v.k` as an effect: on `null` it throws a `TypeError`
(the message stands for the engine's); otherwise it yields the property value
or `undefined` (`none`). -/
def jsGetMember (v : JValue) (k : String) : Except String (Option JValue) :=
  match v with
  | JValue.null => Except.error "TypeError: Cannot read properties of null"
  | _ => Except.ok (jsMemberOpt v k)

/-- JavaScript truthiness of a (JSON-obtained) value. -/
def jsTruthy : JValue → Bool
  | JValue.null => false
  | JValue.bool b => b
  | JValue.num q => q ≠ 0
  | JValue.str s => s ≠ ""
  | JValue.arr _ => true
  | JValue.obj _ => true

/-- The expression `x || ''`: keep a truthy value, otherwise the empty
string (`undefined`/`null`/`false`/`0`/`''` all collapse to `''`). -/
def jsOrEmpty (x : Option JValue) : JValue :=
  match x with
  | none => JValue.str ""
  | some v => if jsTruthy v then v else JValue.str ""

/-- Calling `.replace(/\s/g, '')` on a value: succeeds (stripping
JS-whitespace) only on strings; on any other (necessarily truthy, given the
`|| ''` coercion upstream) value it throws a `TypeError`. -/
def jsStripWsMethod : JValue → Except String String
  | JValue.str s => Except.ok (stripWs s)
  | _ => Except.error "TypeError: replace is not a function"

/- ## The image URL validation (`isValidImage`, aiService.ts lines 300-305) -/

/-- A line terminator for the purposes of the regex metacharacter `.`
(which cannot match one without the `s` flag). -/
def isLineTerm (c : Char) : Bool :=
  c == '\n' || c == '\r' || c.val == 0x2028 || c.val == 0x2029

/-- Case-insensitive strip of an ASCII pattern from the front of `s`. -/
def stripCIPat : List Char → List Char → Option (List Char)
  | [], s => some s
  | _ :: _, [] => none
  | p :: ps, c :: cs => if p.toLower == c.toLower then stripCIPat ps cs else none

/-- What may follow the extension so that
`\.(jpg|jpeg|png|webp|gif|bmp|svg)(\?.*)?$` still matches: either the end of
the string, or a query string introduced by `?` containing no line
terminator (the greedy `.*` must reach the `$` anchor). -/
def extTail : List Char → Bool
  | [] => true
  | c :: rest => c == '?' && rest.all (fun c2 => !isLineTerm c2)

/-- The alternatives of the image-extension group, in source order. -/
def extNames : List (List Char) :=
  ["jpg".data, "jpeg".data, "png".data, "webp".data, "gif".data, "bmp".data, "svg".data]

/-- Does some extension alternative followed by a valid tail start here
(position just after a dot)? -/
def extAt (s : List Char) : Bool :=
  extNames.any (fun e =>
    match stripCIPat e s with
    | some rest => extTail rest
    | none => false)

/-- Search of `/\.(jpg|jpeg|png|webp|gif|bmp|svg)(\?.*)?$/i` over all
starting positions of the subject. -/
def imageExtMatch : List Char → Bool
  | [] => false
  | c :: rest => (c == '.' && extAt rest) || imageExtMatch rest

/-- The string-level conjunction checked by `isValidImage` on an actual
string: `https://` prefix, extension-suffix regex and length bounds. -/
def validImageStr (u : String) : Bool :=
  jsStartsWith u "https://" && imageExtMatch u.data &&
    decide (15 ≤ u.data.length) && decide (u.data.length ≤ 300)

/-- aiService.ts lines 300-305, `isValidImage`: the `typeof url === 'string'`
guard followed by the string checks (a non-string or absent image field is
invalid). -/
def isValidImage (url : Option JValue) : Bool :=
  match url with
  | some (JValue.str u) => validImageStr u
  | _ => false

/-- The fixed placeholder image URL substituted for invalid images. -/
def placeholderImage : String :=
  "https://images.pexels.com/photos/1008155/pexels-photo-1008155.jpeg?auto=compress&w=600"

/- ## The response extractor (aiService.ts lines 122-124 and 285-287) -/

/-- The opening token of the fenced-code-block regex: the literal
&#96;&#96;&#96;json. -/
def fenceOpenStr : String := "```json"

/-- The closing token: three backticks. -/
def fenceCloseStr : String := "```"

/-- The leftmost match of `/```json\s*([\s\S]*?)\s*```/` on `s`, returning
`(wholeMatch, capturedGroup)`.  Derivation from the regex semantics: the
match must begin at the first occurrence of the literal &#96;&#96;&#96;json;
the lazy capture together with the two greedy `\s*` make the match end at
the first following occurrence of three backticks, with the capture being
the in-between text trimmed of adjacent JS-whitespace. -/
def fenceMatchL (s : List Char) : Option (List Char × List Char) :=
  match splitFirstL fenceOpenStr.data s with
  | none => none
  | some (_, afterOpen) =>
    match splitFirstL fenceCloseStr.data afterOpen with
    | none => none
    | some (innerRaw, _) =>
      some (fenceOpenStr.data ++ innerRaw ++ fenceCloseStr.data, trimJsWs innerRaw)

/-- The leftmost match of the greedy `/\x7b[\s\S]*\x7d/` (resp. `/\[.*\]/s`)
pattern: from the first opening delimiter to the last closing delimiter of
the whole subject (greedy star with backtracking), provided the former
precedes the latter. -/
def braceMatchL (oc cc : Char) (s : List Char) : Option (List Char) :=
  match splitFirstL [oc] s with
  | none => none
  | some (_, afterOpen) =>
    match splitFirstL [cc] afterOpen.reverse with
    | none => none
    | some (_, revInner) => some (oc :: (revInner.reverse ++ [cc]))

/-- aiService.ts lines 122-124 / 285-287:
`text.match(/```json\s*([\s\S]*?)\s*```/) || text.match(greedy)` followed by
`jsonMatch ? jsonMatch[1] || jsonMatch[0] : text`.  When the fence matches
with an empty capture, `jsonMatch[1] || jsonMatch[0]` falls back to the whole
fenced match, backticks included. -/
def extractJsonCandidate (oc cc : Char) (text : String) : String :=
  match fenceMatchL text.data with
  | some (whole, inner) => if inner.isEmpty then ⟨whole⟩ else ⟨inner⟩
  | none =>
    match braceMatchL oc cc text.data with
    | some sub => ⟨sub⟩
    | none => text

/-- The plan-side extractor (object pattern). -/
def extractPlanJson (text : String) : String :=
  extractJsonCandidate lbraceCh rbraceCh text

/-- The recommendation-side extractor (array pattern, `s` flag). -/
def extractRecsJson (text : String) : String :=
  extractJsonCandidate lbrackCh rbrackCh text

/- ## The aiService pipelines -/

/-- The per-invocation environment: the `GEMINI_API_KEY` environment variable
and the outcome of the single model round trip
(`model.generateContent(prompt)` → `response.text()`), which either yields
the raw response text or throws with a transport-error message. -/
structure Env where
  apiKey : Option String
  modelText : Except String String

/-- aiService.ts lines 7-17, `getGenAIClient`: throws
`GEMINI_API_KEY is not defined` when the key is absent from the environment,
otherwise yields the client.  (The module-level memoisation of the client is
behaviourally invisible here: the client value itself is never consulted.) -/
def getGenAIClient (env : Env) : Except String Unit :=
  match env.apiKey with
  | none => Except.error "GEMINI_API_KEY is not defined"
  | some _ => Except.ok ()

/-- The plan-generation input record (aiService.ts lines 104-113). -/
structure TravelData where
  destination : String
  startDate : String
  endDate : String
  memberCount : Nat
  budget : ℚ
  interests : List String
  travelStyle : String
  description : String

/-- The recommendation-preferences input record (lines 268-277). -/
structure RecPrefs where
  destination : String
  region : Option String
  interests : List String
  budget : String
  travelStyle : String
  groupSize : Nat
  duration : Nat
  customNote : Option String

/- ### Date handling of the prompt builder (lines 34-37) -/

/-- Day count since the epoch of a proleptic-Gregorian civil date
(the classic days-from-civil algorithm); embeds `Date.UTC` for date-only
inputs. -/
def daysFromCivil (y : Int) (m d : Nat) : Int :=
  let y2 : Int := if m ≤ 2 then y - 1 else y
  let era : Int := Int.ediv y2 400
  let yoe : Int := y2 - era * 400
  let mp : Int := (Int.ofNat m + 9) % 12
  let doy : Int := Int.ediv (153 * mp + 2) 5 + Int.ofNat d - 1
  let doe : Int := yoe * 365 + Int.ediv yoe 4 - Int.ediv yoe 100 + doy
  era * 146097 + doe - 719468

/-- Split a character list at `-` separators. -/
def splitDash (s : List Char) : List (List Char) :=
  match s with
  | [] => [[]]
  | c :: rest =>
    match splitDash rest with
    | grp :: grps => if c == '-' then [] :: grp :: grps else (c :: grp) :: grps
    | [] => [[c]]

/-- Days in a month of the Gregorian calendar. -/
def daysInMonth (y : Int) (m : Nat) : Nat :=
  if m == 2 then
    if y % 4 == 0 && (y % 100 ≠ 0 || y % 400 == 0) then 29 else 28
  else if m == 4 || m == 6 || m == 9 || m == 11 then 30
  else 31

/-- `new Date(s)` for a date-only ISO string `YYYY-MM-DD` (the format used by
the application), modelled as the signed epoch-day count; `none` stands for
an Invalid Date (`NaN` timestamp). -/
def parseYMD (s : String) : Option Int :=
  match splitDash s.data with
  | [ycs, mcs, dcs] =>
    if ycs.length == 4 && mcs.length == 2 && dcs.length == 2 &&
        ycs.all isDigitCh && mcs.all isDigitCh && dcs.all isDigitCh then
      let y : Int := Int.ofNat (digitsToNat ycs)
      let m : Nat := digitsToNat mcs
      let d : Nat := digitsToNat dcs
      if 1 ≤ m && m ≤ 12 && 1 ≤ d && d ≤ daysInMonth y m then
        some (daysFromCivil y m d)
      else none
    else none
  | _ => none

/-- Ceiling division of integers (`Math.ceil` composed with an exact
division), for a positive divisor. -/
def ceilDivInt (a b : Int) : Int := -(Int.ediv (-a) b)

/-- aiService.ts lines 34-37, the trip-length computation of
`createTravelPrompt`:
`days = Math.ceil((end.getTime() - start.getTime()) / 86400000) + 1` and
`nights = days - 1`, embedded over epoch-day counts (date-only timestamps
are exact multiples of 86400000 ms).  `none` models the `NaN` propagation
from an invalid date.  The surrounding prompt text merely interpolates these
numbers and the input fields; it is not otherwise modelled because no
property depends on it. -/
def promptDays (startDate endDate : String) : Option (Int × Int) :=
  match parseYMD startDate, parseYMD endDate with
  | some s, some e =>
    let days := ceilDivInt ((e - s) * 86400000) 86400000 + 1
    some (days, days - 1)
  | _, _ => none

/- ### The fallback mock plan (lines 147-202) -/

/-- `Math.round` of JavaScript: round half toward positive infinity. -/
def jsRound (q : ℚ) : Int := Int.floor (q + 1 / 2)

/-- The budget breakdown of the mock plan (lines 190-195):
`Math.round(budget * 0.3)`, `* 0.4`, `* 0.2`, `* 0.1` as
(transportation, accommodation, food, activities).  The decimal factors are
exact here; at every input appearing below the IEEE-double evaluation agrees. -/
def mockBudget (budget : ℚ) : Int × Int × Int × Int :=
  (jsRound (budget * (3 / 10)), jsRound (budget * (4 / 10)),
   jsRound (budget * (2 / 10)), jsRound (budget * (1 / 10)))

/-- aiService.ts lines 147-202, `generateMockPlan`: the deterministic
fallback plan object, embedded as the JSON value the returned object
denotes. -/
def generateMockPlan (td : TravelData) : JValue :=
  JValue.obj [
    ("schedule", JValue.arr [
      JValue.obj [
        ("date", JValue.str td.startDate),
        ("day", JValue.str "Day 1"),
        ("items", JValue.arr [
          JValue.obj [
            ("time", JValue.str "09:00"),
            ("title", JValue.str (td.destination ++ "到着")),
            ("location", JValue.str td.destination),
            ("description", JValue.str "空港・駅から目的地への移動"),
            ("category", JValue.str "transport")],
          JValue.obj [
            ("time", JValue.str "14:00"),
            ("title", JValue.str "おすすめ観光スポット"),
            ("location", JValue.str (td.destination ++ "の名所")),
            ("description", JValue.str (joinSep "、" td.interests ++ "に基づいたおすすめスポット")),
            ("category", JValue.str "sightseeing")]])]]),
    ("places", JValue.arr [
      JValue.obj [
        ("name", JValue.str (td.destination ++ "の人気スポット")),
        ("category", JValue.str "観光地"),
        ("rating", JValue.num (9 / 2)),
        ("description", JValue.str "AIが選んだおすすめの場所")]]),
    ("budget", JValue.obj [
      ("transportation", JValue.num ((mockBudget td.budget).1 : ℚ)),
      ("accommodation", JValue.num ((mockBudget td.budget).2.1 : ℚ)),
      ("food", JValue.num ((mockBudget td.budget).2.2.1 : ℚ)),
      ("activities", JValue.num ((mockBudget td.budget).2.2.2 : ℚ))]),
    ("recommendations", JValue.obj [
      ("mustVisit", JValue.arr [JValue.str (td.destination ++ "の必見スポット")]),
      ("localFood", JValue.arr [JValue.str (td.destination ++ "の名物グルメ")]),
      ("tips", JValue.arr [
        JValue.str "現地の天気をチェックしましょう",
        JValue.str "公共交通機関の時刻表を確認しましょう"])])]

/- ### Plan generation (lines 104-142) -/

/-- The result shape `\x7bsuccess, data, error?\x7d` of `generateTravelPlan`. -/
structure PlanResult where
  success : Bool
  data : JValue
  error : Option String

/-- The body of the `try` block of `generateTravelPlan` (lines 114-131):
obtain the client (throws when the key is missing), perform the model round
trip, extract a JSON candidate from the raw text, `JSON.parse` it, and wrap
it untouched. -/
def generateTravelPlanTry (env : Env) (_td : TravelData) : Except String JValue :=
  match getGenAIClient env with
  | Except.error e => Except.error e
  | Except.ok _ =>
    match env.modelText with
    | Except.error e => Except.error e
    | Except.ok text =>
      let jsonString := extractPlanJson text
      jsonParse jsonString

/-- aiService.ts lines 104-142, `generateTravelPlan`: the `catch` converts
any thrown error into the fallback result carrying the mock plan and the
error's message. -/
def generateTravelPlan (env : Env) (td : TravelData) : PlanResult :=
  match generateTravelPlanTry env td with
  | Except.ok plan => { success := true, data := plan, error := none }
  | Except.error e => { success := false, data := generateMockPlan td, error := some e }

/- ### Recommendation generation (lines 268-325) -/

/-- The rethrown message of the inner parse `catch` (lines 294-296), used for
both a `JSON.parse` failure and a parsed non-array. -/
def recListErrMsg : String :=
  "AIから有効な推薦リストが取得できませんでした。目的地や条件を見直してください。"

/-- The coercion `(rec.k || '').replace(/\s/g, '')` applied to a property of
a value: member access (throws on `null`), `|| ''` defaulting, and
whitespace stripping (throws on a truthy non-string). -/
def coercedStrippedField (rec : JValue) (k : String) : Except String String :=
  match jsGetMember rec k with
  | Except.error e => Except.error e
  | Except.ok raw => jsStripWsMethod (jsOrEmpty raw)

/-- One evaluation of the filter callback (lines 306-309):
`(rec.name || '').replace(/\s/g, '')`, same for `description`, then the
destination/region containment test.  Member access on `null` and `replace`
on a truthy non-string throw, aborting the whole call. -/
def recFilterPred (dest region : String) (rec : JValue) : Except String Bool :=
  match coercedStrippedField rec "name" with
  | Except.error e => Except.error e
  | Except.ok name =>
    match coercedStrippedField rec "description" with
    | Except.error e => Except.error e
    | Except.ok desc =>
      Except.ok (includesStr name dest || includesStr desc dest ||
        (region ≠ "" && (includesStr name region || includesStr desc region)))

/-- `Array.prototype.filter` with the possibly-throwing callback above
(left-to-right, first throw aborts). -/
def filterRecsM (dest region : String) : List JValue → Except String (List JValue)
  | [] => Except.ok []
  | r :: rs =>
    match recFilterPred dest region r with
    | Except.error e => Except.error e
    | Except.ok keep =>
      match filterRecsM dest region rs with
      | Except.error e => Except.error e
      | Except.ok rest => Except.ok (if keep then r :: rest else rest)

/-- One evaluation of the map callback (lines 310-315):
`(\x7b ...rec, image: isValidImage(rec.image) ? rec.image : placeholder \x7d)`.
The spread is evaluated first, then the image property is defined, updating
in place when `rec` already owns one. -/
def mapRecM (rec : JValue) : Except String JValue :=
  match jsGetMember rec "image" with
  | Except.error e => Except.error e
  | Except.ok img =>
    let newImg : JValue :=
      match img with
      | some (JValue.str u) => if validImageStr u then JValue.str u else JValue.str placeholderImage
      | _ => JValue.str placeholderImage
    Except.ok (JValue.obj (setField (jsSpreadFields rec) "image" newImg))

/-- `Array.prototype.map` over the filtered list. -/
def mapRecsM : List JValue → Except String (List JValue)
  | [] => Except.ok []
  | r :: rs =>
    match mapRecM r with
    | Except.error e => Except.error e
    | Except.ok v =>
      match mapRecsM rs with
      | Except.error e => Except.error e
      | Except.ok vs => Except.ok (v :: vs)

/-- Lines 306-315: `recommendations.filter(...).map(...)`. -/
def processRecs (dest region : String) (recs : List JValue) :
    Except String (List JValue) :=
  match filterRecsM dest region recs with
  | Except.error e => Except.error e
  | Except.ok kept => mapRecsM kept

/-- The body of the `try` block of `generateRecommendations` (lines 278-316):
client, model round trip, array extraction, strict parse with the inner
`catch` collapsing parse failures and non-arrays into `recListErrMsg`, then
the destination/region filter and the image-sanitising map. -/
def generateRecommendationsTry (env : Env) (prefs : RecPrefs) :
    Except String (List JValue) :=
  match getGenAIClient env with
  | Except.error e => Except.error e
  | Except.ok _ =>
    match env.modelText with
    | Except.error e => Except.error e
    | Except.ok text =>
      match jsonParse (extractRecsJson text) with
      | Except.ok (JValue.arr recs) =>
        processRecs (stripWs prefs.destination)
          (stripWs (match prefs.region with | some r => r | none => "")) recs
      | Except.ok _ => Except.error recListErrMsg
      | Except.error _ => Except.error recListErrMsg

/-- The result shape `\x7bsuccess, recommendations, error?\x7d`. -/
structure RecResult where
  success : Bool
  recommendations : List JValue
  error : Option String

/-- aiService.ts lines 268-325, `generateRecommendations`: the `catch`
surfaces any thrown error as a failure with an empty recommendation list. -/
def generateRecommendations (env : Env) (prefs : RecPrefs) : RecResult :=
  match generateRecommendationsTry env prefs with
  | Except.ok recs => { success := true, recommendations := recs, error := none }
  | Except.error e => { success := false, recommendations := [], error := some e }

/-- The image value computed by the map callback for a surviving (hence
non-`null`) element: the original image when `isValidImage` accepts it, the
placeholder otherwise. -/
def computedImage (rec : JValue) : JValue :=
  match jsMemberOpt rec "image" with
  | some (JValue.str u) =>
    if validImageStr u then JValue.str u else JValue.str placeholderImage
  | _ => JValue.str placeholderImage

/- ## Concrete inputs used by the witnesses and counterexamples -/

/-- A travel-data record with a small budget (used for the budget-rounding
counterexample; every date below is a valid ordered range). -/
def tdBudget5 : TravelData :=
  ⟨"京都", "2024-03-15", "2024-03-17", 2, 5, ["歴史"], "balanced", ""⟩

/-- A travel-data record with a round budget. -/
def tdPlain : TravelData :=
  ⟨"京都", "2024-03-15", "2024-03-17", 2, 50000, ["歴史", "グルメ"], "balanced", ""⟩

/-- An environment with the API key missing. -/
def envNoKey : Env := ⟨none, Except.error "unreachable"⟩

/-- An environment whose model call throws an `Error` with empty message. -/
def envEmptyErr : Env := ⟨some "key", Except.error ""⟩

/-- An environment whose model call throws a transport error. -/
def envNetErr : Env := ⟨some "key", Except.error "fetch failed"⟩

/-- An environment whose model call returns text with no JSON in it. -/
def envNoJson : Env := ⟨some "key", Except.ok "sorry, I cannot help"⟩

/-- An environment whose model call returns a JSON object (not an array). -/
def envObjText : Env := ⟨some "key", Except.ok "\x7b\x7d"⟩

/-- An environment whose model call returns a recommendation array with one
on-destination element and one off-destination element. -/
def envRecsKyoto : Env :=
  ⟨some "key",
   Except.ok "[\x7b\"name\":\"京都タワー\",\"description\":\"京都のランドマーク\"\x7d,\x7b\"name\":\"東京タワー\",\"description\":\"東京のランドマーク\"\x7d]"⟩

/-- Recommendation preferences for Kyoto without a region. -/
def prefsKyoto : RecPrefs := ⟨"京都", none, ["歴史"], "中", "balanced", 2, 3, none⟩

/-- A parsed recommendation element naming the destination, with a valid
image URL. -/
def recGion : JValue :=
  JValue.obj [("name", JValue.str "京都 祇園"),
    ("description", JValue.str "花街"),
    ("image", JValue.str "https://example.com/gion.jpg")]

/-- A parsed recommendation element naming the destination, with an invalid
(non-`https`) image URL. -/
def recArashiyama : JValue :=
  JValue.obj [("name", JValue.str "嵐山"),
    ("description", JValue.str "京都の景勝地"),
    ("image", JValue.str "http://example.com/arashiyama.jpg")]

/-- A parsed recommendation element unrelated to the destination. -/
def recTokyoTower : JValue :=
  JValue.obj [("name", JValue.str "東京タワー"),
    ("description", JValue.str "東京のランドマーク")]

/-- The concrete parsed array fed to the filter/map stage in witnesses. -/
def recListKyoto : List JValue := [recGion, recTokyoTower, recArashiyama]

/- ## Lemmas about the string-search primitives -/

/-- Stripping a pattern from itself followed by anything succeeds. -/
theorem dropPre_self_append (pat rest : List Char) :
    dropPre pat (pat ++ rest) = some rest := by
  induction pat with
  | nil => rfl
  | cons p ps ih => simp [dropPre, ih]

/-- `dropPre` succeeds exactly when the pattern is a leading pattern. -/
theorem dropPre_isSome_eq_startsWith (pat s : List Char) :
    (dropPre pat s).isSome = startsWithL pat s := by
  induction pat generalizing s with
  | nil => cases s <;> rfl
  | cons p ps ih =>
    cases s with
    | nil => rfl
    | cons c cs =>
      cases hpc : p == c <;> simp [dropPre, startsWithL, hpc, ih]

/-- The leftmost split finds a marked occurrence whose first character does
not occur in the prefix. -/
theorem splitFirstL_marker (p : Char) (ps pre post : List Char) (h : p ∉ pre) :
    splitFirstL (p :: ps) (pre ++ (p :: ps) ++ post) = some (pre, post) := by
  induction pre with
  | nil =>
    have hd : dropPre (p :: ps) ((p :: ps) ++ post) = some post :=
      dropPre_self_append (p :: ps) post
    simp only [List.nil_append]
    rw [show (p :: ps) ++ post = p :: (ps ++ post) from rfl]
    rw [splitFirstL]
    rw [show p :: (ps ++ post) = (p :: ps) ++ post from rfl, hd]
  | cons c cs ih =>
    have hmem : ¬ p = c ∧ p ∉ cs := by
      simpa [List.mem_cons, not_or] using h
    have hpc : (p == c) = false := beq_eq_false_iff_ne.mpr hmem.1
    rw [show (c :: cs) ++ (p :: ps) ++ post = c :: (cs ++ (p :: ps) ++ post) from rfl]
    rw [splitFirstL]
    rw [show dropPre (p :: ps) (c :: (cs ++ (p :: ps) ++ post)) = none from by
      simp [dropPre, hpc]]
    rw [ih hmem.2]

/-- The leftmost split succeeds exactly when the pattern occurs. -/
theorem splitFirstL_isSome_eq_hasSub (pat s : List Char) :
    (splitFirstL pat s).isSome = hasSubL pat s := by
  induction s with
  | nil => cases pat <;> simp [splitFirstL, hasSubL, dropPre, List.isEmpty]
  | cons c cs ih =>
    rw [splitFirstL, hasSubL, ← dropPre_isSome_eq_startsWith]
    cases hd : dropPre pat (c :: cs) with
    | some r => simp [hd]
    | none =>
      cases hs : splitFirstL pat cs with
      | some pq => simp [hd, hs, ← ih]
      | none => simp [hd, hs, ← ih]

/-- When the pattern does not occur, the split fails. -/
theorem splitFirstL_eq_none (pat s : List Char) (h : hasSubL pat s = false) :
    splitFirstL pat s = none := by
  have hiso := splitFirstL_isSome_eq_hasSub pat s
  rw [h] at hiso
  cases hv : splitFirstL pat s with
  | some pq => rw [hv] at hiso; simp at hiso
  | none => rfl

/- ## Lemmas about object-field manipulation -/

/-- Updating one key leaves lookups of the other keys unchanged. -/
theorem lookupF_setField_ne (fs : List (String × JValue)) (key k : String)
    (v : JValue) (h : k ≠ key) :
    lookupF (setField fs key v) k = lookupF fs k := by
  have hk : (key == k) = false := beq_eq_false_iff_ne.mpr (Ne.symm h)
  induction fs with
  | nil => simp [setField, lookupF, hk]
  | cons q qs ih =>
    cases hq : (q.1 == key) with
    | true =>
      have hq2 : (q.1 == k) = false := by
        rw [beq_iff_eq.mp hq]; exact hk
      simp [setField, lookupF, hq, hq2, hk]
    | false => simp [setField, lookupF, hq, ih]

/-- Updating a key makes its lookup yield the new value. -/
theorem lookupF_setField_self (fs : List (String × JValue)) (key : String)
    (v : JValue) : lookupF (setField fs key v) key = some v := by
  induction fs with
  | nil => simp [setField, lookupF]
  | cons q qs ih =>
    cases hq : (q.1 == key) with
    | true => simp [setField, lookupF, hq]
    | false => simp [setField, lookupF, hq, ih]

/- ## Lemmas about index-property keys -/

/-- The digit character of a value below ten is a digit. -/
theorem isDigitCh_toDigitChar (d : Nat) (h : d < 10) :
    isDigitCh (toDigitChar d) = true := by
  interval_cases d <;> decide

/-- The digit loop only ever emits digit characters. -/
theorem natDigitsGo_all_digits (fuel : Nat) :
    ∀ (n : Nat) (acc : List Char), (∀ c ∈ acc, isDigitCh c = true) →
      ∀ c ∈ natDigitsGo fuel n acc, isDigitCh c = true := by
  induction fuel with
  | zero => intro n acc h c hc; exact h c hc
  | succ f ih =>
    intro n acc h c hc
    rw [natDigitsGo] at hc
    by_cases hn : n < 10
    · rw [if_pos hn] at hc
      rcases List.mem_cons.mp hc with h1 | h2
      · rw [h1]; exact isDigitCh_toDigitChar n hn
      · exact h c h2
    · rw [if_neg hn] at hc
      refine ih (n / 10) (toDigitChar (n % 10) :: acc) ?_ c hc
      intro c2 hc2
      rcases List.mem_cons.mp hc2 with h1 | h2
      · rw [h1]; exact isDigitCh_toDigitChar _ (Nat.mod_lt _ (by norm_num))
      · exact h c2 h2

/-- Index property keys consist of digits only. -/
theorem natDigitStr_all_digits (n : Nat) :
    (natDigitStr n).data.all isDigitCh = true := by
  rw [List.all_eq_true]
  intro c hc
  exact natDigitsGo_all_digits (n + 1) n [] (by intro c2 h2; cases h2) c hc

/-- A key containing a non-digit character never hits an index property. -/
theorem lookupF_indexKeyed_none (i : Nat) (vs : List JValue) (k : String)
    (h : k.data.all isDigitCh = false) :
    lookupF (indexKeyedFrom i vs) k = none := by
  induction vs generalizing i with
  | nil => rfl
  | cons v vt ih =>
    have hne : (natDigitStr i == k) = false := by
      cases hb : (natDigitStr i == k) with
      | false => rfl
      | true =>
        have heq : natDigitStr i = k := beq_iff_eq.mp hb
        rw [← heq, natDigitStr_all_digits i] at h
        cases h
    simp [indexKeyedFrom, lookupF, hne, ih]

/-- A key containing a non-digit character is not a canonical index. -/
theorem toCanonicalIndex_none (k : String) (h : k.data.all isDigitCh = false) :
    toCanonicalIndex k = none := by
  unfold toCanonicalIndex
  cases hk : k.data with
  | nil => rfl
  | cons c cs =>
    rw [hk] at h
    simp [h]

/- ## Lemmas about the filter/map stage -/

/-- The map callback on any non-`null` value: spread plus image override. -/
theorem mapRecM_ok (rec : JValue) (h : rec ≠ JValue.null) :
    mapRecM rec =
      Except.ok (JValue.obj (setField (jsSpreadFields rec) "image" (computedImage rec))) := by
  cases rec with
  | null => exact absurd rfl h
  | bool b => rfl
  | num q => rfl
  | str s => rfl
  | arr xs => rfl
  | obj fs => rfl

/-- The coerced stripped name/description of a mapped element agree with
those of the original element, for any non-index key other than `image` and
`length`. -/
theorem coercedStrippedField_transfer (rec : JValue) (k : String)
    (hnull : rec ≠ JValue.null) (him : k ≠ "image")
    (hlen : (k == "length") = false) (hdig : k.data.all isDigitCh = false) :
    coercedStrippedField
      (JValue.obj (setField (jsSpreadFields rec) "image" (computedImage rec))) k
      = coercedStrippedField rec k := by
  have himb : ("image" == k) = false := beq_eq_false_iff_ne.mpr (Ne.symm him)
  cases rec with
  | null => exact absurd rfl hnull
  | obj fs =>
    simp [coercedStrippedField, jsGetMember, jsSpreadFields, jsMemberOpt,
      lookupF_setField_ne _ _ _ _ him]
  | str s =>
    simp [coercedStrippedField, jsGetMember, jsSpreadFields, jsMemberOpt,
      lookupF_setField_ne _ _ _ _ him, lookupF_indexKeyed_none _ _ _ hdig,
      hlen, toCanonicalIndex_none k hdig]
  | arr xs =>
    simp [coercedStrippedField, jsGetMember, jsSpreadFields, jsMemberOpt,
      lookupF_setField_ne _ _ _ _ him, lookupF_indexKeyed_none _ _ _ hdig,
      hlen, toCanonicalIndex_none k hdig]
  | bool b =>
    simp [coercedStrippedField, jsGetMember, jsSpreadFields, jsMemberOpt,
      setField, lookupF, himb]
  | num q =>
    simp [coercedStrippedField, jsGetMember, jsSpreadFields, jsMemberOpt,
      setField, lookupF, himb]

/-- A successful filter pass implies the predicate held (with `true`) for
every kept element, and the kept elements form a sublist (order preserved). -/
theorem filterRecsM_ok (dest region : String) (l kept : List JValue)
    (h : filterRecsM dest region l = Except.ok kept) :
    kept.Sublist l ∧ ∀ rec ∈ kept, recFilterPred dest region rec = Except.ok true := by
  induction l generalizing kept with
  | nil =>
    have hk : kept = [] := by
      simpa [filterRecsM] using h.symm
    subst hk
    exact ⟨List.Sublist.refl [], by intro rec hr; cases hr⟩
  | cons r rs ih =>
    cases hp : recFilterPred dest region r with
    | error e => rw [filterRecsM, hp] at h; cases h
    | ok b =>
      cases hrest : filterRecsM dest region rs with
      | error e => rw [filterRecsM, hp, hrest] at h; cases h
      | ok kept2 =>
        rw [filterRecsM, hp, hrest] at h
        have hk : kept = if b then r :: kept2 else kept2 := by
          cases h; rfl
        rcases ih kept2 hrest with ⟨hsub, hall⟩
        cases b with
        | true =>
          subst hk
          refine ⟨List.Sublist.cons₂ r hsub, ?_⟩
          intro rec hr
          rcases List.mem_cons.mp hr with h1 | h2
          · rw [h1]; exact hp
          · exact hall rec h2
        | false =>
          subst hk
          exact ⟨List.Sublist.cons r hsub, hall⟩

/-- A successful map pass relates inputs and outputs pointwise in order. -/
theorem mapRecsM_ok (l out : List JValue) (h : mapRecsM l = Except.ok out) :
    List.Forall₂ (fun r v => mapRecM r = Except.ok v) l out := by
  induction l generalizing out with
  | nil =>
    have hk : out = [] := by simpa [mapRecsM] using h.symm
    subst hk
    exact List.Forall₂.nil
  | cons r rs ih =>
    cases hm : mapRecM r with
    | error e => rw [mapRecsM, hm] at h; cases h
    | ok v =>
      cases hrest : mapRecsM rs with
      | error e => rw [mapRecsM, hm, hrest] at h; cases h
      | ok vs =>
        rw [mapRecsM, hm, hrest] at h
        have hk : out = v :: vs := by cases h; rfl
        subst hk
        exact List.Forall₂.cons hm (ih vs hrest)

/-- Inversion of the whole filter/map stage. -/
theorem processRecs_ok (dest region : String) (recs out : List JValue)
    (h : processRecs dest region recs = Except.ok out) :
    ∃ kept, filterRecsM dest region recs = Except.ok kept ∧
      kept.Sublist recs ∧
      (∀ rec ∈ kept, recFilterPred dest region rec = Except.ok true) ∧
      List.Forall₂ (fun r v => mapRecM r = Except.ok v) kept out := by
  cases hf : filterRecsM dest region recs with
  | error e => rw [processRecs, hf] at h; cases h
  | ok kept =>
    rw [processRecs, hf] at h
    rcases filterRecsM_ok dest region recs kept hf with ⟨hsub, hall⟩
    exact ⟨kept, rfl, hsub, hall, mapRecsM_ok kept out h⟩

/-- The filter predicate throws on `null` (member access), so a `null`
element never passes it. -/
theorem recFilterPred_ne_null (dest region : String) (rec : JValue) (b : Bool)
    (h : recFilterPred dest region rec = Except.ok b) : rec ≠ JValue.null := by
  intro he
  subst he
  simp [recFilterPred, coercedStrippedField, jsGetMember] at h

/-- The map callback throws on `null`. -/
theorem mapRecM_null : mapRecM JValue.null = Except.error "TypeError: Cannot read properties of null" := rfl

/-- Unfolding of the string-level image validation into its three clauses. -/
theorem validImageStr_eq_true_iff (u : String) :
    validImageStr u = true ↔
      (jsStartsWith u "https://" = true ∧ imageExtMatch u.data = true ∧
        15 ≤ u.data.length ∧ u.data.length ≤ 300) := by
  simp [validImageStr, Bool.and_assoc]

/-- For a non-index key other than `length`, property access agrees with
lookup among the spread (own enumerable) fields, on every value. -/
theorem jsMemberOpt_eq_spread_lookup (rec : JValue) (k : String)
    (hlen : (k == "length") = false) (hdig : k.data.all isDigitCh = false) :
    jsMemberOpt rec k = lookupF (jsSpreadFields rec) k := by
  cases rec with
  | null => rfl
  | bool b => rfl
  | num q => rfl
  | obj fs => rfl
  | str s =>
    simp [jsMemberOpt, jsSpreadFields, hlen, toCanonicalIndex_none k hdig,
      lookupF_indexKeyed_none _ _ _ hdig]
  | arr xs =>
    simp [jsMemberOpt, jsSpreadFields, hlen, toCanonicalIndex_none k hdig,
      lookupF_indexKeyed_none _ _ _ hdig]

/-- Membership on the right of a pointwise relation comes from a related
member on the left. -/
theorem forall₂_mem_right {R : JValue → JValue → Prop} {l out : List JValue}
    (h : List.Forall₂ R l out) (v : JValue) (hv : v ∈ out) :
    ∃ r ∈ l, R r v := by
  induction h with
  | nil => cases hv
  | cons hR hTail ih =>
    rcases List.mem_cons.mp hv with h1 | h2
    · subst h1; exact ⟨_, List.mem_cons_self _ _, hR⟩
    · rcases ih h2 with ⟨r, hr, hRr⟩
      exact ⟨r, List.mem_cons_of_mem _ hr, hRr⟩

/-- A successful recommendation call decomposes into a successful model round
trip, a parsed array, and a successful filter/map stage on it. -/
theorem generateRecommendations_ok_inv (env : Env) (prefs : RecPrefs)
    (out : List JValue)
    (h : generateRecommendationsTry env prefs = Except.ok out) :
    ∃ recs : List JValue,
      (∃ text, env.modelText = Except.ok text ∧
        jsonParse (extractRecsJson text) = Except.ok (JValue.arr recs)) ∧
      processRecs (stripWs prefs.destination)
        (stripWs (match prefs.region with | some r => r | none => "")) recs
        = Except.ok out := by
  rw [generateRecommendationsTry, getGenAIClient] at h
  cases hk : env.apiKey with
  | none => rw [hk] at h; exact Except.noConfusion h
  | some key =>
    rw [hk] at h
    cases hm : env.modelText with
    | error e => rw [hm] at h; exact Except.noConfusion h
    | ok text =>
      rw [hm] at h
      simp only at h
      cases hj : jsonParse (extractRecsJson text) with
      | error e => rw [hj] at h; exact Except.noConfusion h
      | ok v =>
        rw [hj] at h
        cases v with
        | arr xs => exact ⟨xs, ⟨text, rfl, hj⟩, h⟩
        | null => exact Except.noConfusion h
        | bool b => exact Except.noConfusion h
        | num q => exact Except.noConfusion h
        | str s => exact Except.noConfusion h
        | obj fs => exact Except.noConfusion h

/- ## Claim C1 -/

/-- C1: for every recommendation-generation call that returns `success:true`,
every element of the returned recommendations array contains the
whitespace-stripped destination string as a case-sensitive substring of its
whitespace-stripped name or description, or, when a region was supplied (and
in particular whenever the destination match failed on both fields), contains
the whitespace-stripped region string in its name or description; elements
satisfying neither condition are dropped before return. -/
theorem c1_recommendations_destination_invariant (env : Env) (prefs : RecPrefs)
    (hs : (generateRecommendations env prefs).success = true) :
    ∀ v ∈ (generateRecommendations env prefs).recommendations,
      ∃ n d : String,
        coercedStrippedField v "name" = Except.ok n ∧
        coercedStrippedField v "description" = Except.ok d ∧
        (includesStr n (stripWs prefs.destination) = true ∨
         includesStr d (stripWs prefs.destination) = true ∨
         (prefs.region.isSome = true ∧
           (includesStr n (stripWs (prefs.region.getD "")) = true ∨
            includesStr d (stripWs (prefs.region.getD "")) = true))) := by
  intro v hv
  cases ht : generateRecommendationsTry env prefs with
  | error e =>
    rw [generateRecommendations, ht] at hs
    exact absurd hs (by simp)
  | ok outList =>
    rw [generateRecommendations, ht] at hv
    rcases generateRecommendations_ok_inv env prefs outList ht with ⟨recs, _, hproc⟩
    rcases processRecs_ok _ _ recs outList hproc with ⟨kept, hfil, hsub, hall, hf2⟩
    rcases forall₂_mem_right hf2 v hv with ⟨rec, hrk, hmap⟩
    have hpred := hall rec hrk
    have hnull := recFilterPred_ne_null _ _ rec true hpred
    rw [mapRecM_ok rec hnull] at hmap
    have hv_eq : v = JValue.obj (setField (jsSpreadFields rec) "image" (computedImage rec)) :=
      (Except.ok.inj hmap).symm
    cases hn : coercedStrippedField rec "name" with
    | error e => rw [recFilterPred, hn] at hpred; exact Except.noConfusion hpred
    | ok n =>
      cases hd : coercedStrippedField rec "description" with
      | error e => rw [recFilterPred, hn, hd] at hpred; exact Except.noConfusion hpred
      | ok d =>
        rw [recFilterPred, hn, hd] at hpred
        have hb := Except.ok.inj hpred
        have hnt : coercedStrippedField v "name" = Except.ok n := by
          rw [hv_eq,
            coercedStrippedField_transfer rec "name" hnull (by decide) (by decide) (by decide)]
          exact hn
        have hdt : coercedStrippedField v "description" = Except.ok d := by
          rw [hv_eq,
            coercedStrippedField_transfer rec "description" hnull (by decide) (by decide) (by decide)]
          exact hd
        refine ⟨n, d, hnt, hdt, ?_⟩
        simp only [Bool.or_eq_true, Bool.and_eq_true] at hb
        rcases hb with (h1 | h2) | ⟨hne, hinc⟩
        · exact Or.inl h1
        · exact Or.inr (Or.inl h2)
        · cases hr : prefs.region with
          | none =>
            rw [hr] at hne
            have hcontra : stripWs "" ≠ "" := of_decide_eq_true hne
            exact absurd rfl hcontra
          | some r =>
            rw [hr] at hinc
            refine Or.inr (Or.inr ⟨rfl, ?_⟩)
            rcases hinc with h1 | h2
            · exact Or.inl h1
            · exact Or.inr h2

/-- Witness for C1: a concrete call (destination 京都, no region) returning
success; the surviving element (the model also offered 東京タワー, which is
dropped) satisfies the destination invariant. -/
theorem c1_recommendations_destination_invariant_witness :
    ∃ n d : String,
      coercedStrippedField
        (JValue.obj [("name", JValue.str "京都タワー"),
          ("description", JValue.str "京都のランドマーク"),
          ("image", JValue.str placeholderImage)]) "name" = Except.ok n ∧
      coercedStrippedField
        (JValue.obj [("name", JValue.str "京都タワー"),
          ("description", JValue.str "京都のランドマーク"),
          ("image", JValue.str placeholderImage)]) "description" = Except.ok d ∧
      (includesStr n (stripWs prefsKyoto.destination) = true ∨
       includesStr d (stripWs prefsKyoto.destination) = true ∨
       (prefsKyoto.region.isSome = true ∧
         (includesStr n (stripWs (prefsKyoto.region.getD "")) = true ∨
          includesStr d (stripWs (prefsKyoto.region.getD "")) = true))) :=
  c1_recommendations_destination_invariant envRecsKyoto prefsKyoto rfl
    (JValue.obj [("name", JValue.str "京都タワー"),
      ("description", JValue.str "京都のランドマーク"),
      ("image", JValue.str placeholderImage)])
    (List.Mem.head _)

/- ## Claims C4 and C10 -/

/-- Per-element image specification of the map callback: either the original
image field is a string satisfying all three validation clauses and is kept
verbatim, or the output image is the placeholder (and no such valid string
was present). -/
theorem mapRec_image_spec (rec v : JValue) (h : mapRecM rec = Except.ok v) :
    (∃ u : String, jsMemberOpt rec "image" = some (JValue.str u) ∧
        jsStartsWith u "https://" = true ∧ imageExtMatch u.data = true ∧
        15 ≤ u.data.length ∧ u.data.length ≤ 300 ∧
        lookupF (jsSpreadFields v) "image" = some (JValue.str u)) ∨
    (lookupF (jsSpreadFields v) "image" = some (JValue.str placeholderImage) ∧
      ∀ u : String, jsMemberOpt rec "image" = some (JValue.str u) →
        ¬(jsStartsWith u "https://" = true ∧ imageExtMatch u.data = true ∧
          15 ≤ u.data.length ∧ u.data.length ≤ 300)) := by
  have hnull : rec ≠ JValue.null := by
    intro he; subst he; rw [mapRecM_null] at h; exact Except.noConfusion h
  rw [mapRecM_ok rec hnull] at h
  have hv : v = JValue.obj (setField (jsSpreadFields rec) "image" (computedImage rec)) :=
    (Except.ok.inj h).symm
  subst hv
  have hself : lookupF
      (jsSpreadFields (JValue.obj (setField (jsSpreadFields rec) "image" (computedImage rec))))
      "image" = some (computedImage rec) := lookupF_setField_self _ _ _
  cases himg : jsMemberOpt rec "image" with
  | none =>
    refine Or.inr ⟨?_, ?_⟩
    · rw [hself]; simp [computedImage, himg]
    · intro u hu; exact Option.noConfusion hu
  | some iv =>
    cases iv with
    | str u =>
      cases hval : validImageStr u with
      | true =>
        rcases (validImageStr_eq_true_iff u).mp hval with ⟨h1, h2, h3, h4⟩
        refine Or.inl ⟨u, rfl, h1, h2, h3, h4, ?_⟩
        rw [hself]; simp [computedImage, himg, hval]
      | false =>
        refine Or.inr ⟨?_, ?_⟩
        · rw [hself]; simp [computedImage, himg, hval]
        · intro u2 hu2 hconj
          have hu : u = u2 := JValue.str.inj (Option.some.inj hu2)
          subst hu
          have hvt := (validImageStr_eq_true_iff u).mpr
            ⟨hconj.1, hconj.2.1, hconj.2.2.1, hconj.2.2.2⟩
          rw [hval] at hvt
          exact Bool.noConfusion hvt
    | null =>
      refine Or.inr ⟨?_, ?_⟩
      · rw [hself]; simp [computedImage, himg]
      · intro u hu; exact JValue.noConfusion (Option.some.inj hu)
    | bool b =>
      refine Or.inr ⟨?_, ?_⟩
      · rw [hself]; simp [computedImage, himg]
      · intro u hu; exact JValue.noConfusion (Option.some.inj hu)
    | num q =>
      refine Or.inr ⟨?_, ?_⟩
      · rw [hself]; simp [computedImage, himg]
      · intro u hu; exact JValue.noConfusion (Option.some.inj hu)
    | arr xs =>
      refine Or.inr ⟨?_, ?_⟩
      · rw [hself]; simp [computedImage, himg]
      · intro u hu; exact JValue.noConfusion (Option.some.inj hu)
    | obj fs =>
      refine Or.inr ⟨?_, ?_⟩
      · rw [hself]; simp [computedImage, himg]
      · intro u hu; exact JValue.noConfusion (Option.some.inj hu)

/-- C4: for every element surviving the destination filter, if its image
field is not a string starting with `https://`, matching the allowed
image-extension suffix (optionally followed by a query string) and having
length in [15, 300], then the returned element's image field equals the
fixed placeholder URL; otherwise the image field is returned unchanged. -/
theorem c4_image_validation (dest region : String) (recs out : List JValue)
    (h : processRecs dest region recs = Except.ok out) :
    ∃ kept : List JValue, kept.Sublist recs ∧
      (∀ rec ∈ kept, recFilterPred dest region rec = Except.ok true) ∧
      List.Forall₂ (fun rec v =>
        (∃ u : String, jsMemberOpt rec "image" = some (JValue.str u) ∧
            jsStartsWith u "https://" = true ∧ imageExtMatch u.data = true ∧
            15 ≤ u.data.length ∧ u.data.length ≤ 300 ∧
            lookupF (jsSpreadFields v) "image" = some (JValue.str u)) ∨
        (lookupF (jsSpreadFields v) "image" = some (JValue.str placeholderImage) ∧
          ∀ u : String, jsMemberOpt rec "image" = some (JValue.str u) →
            ¬(jsStartsWith u "https://" = true ∧ imageExtMatch u.data = true ∧
              15 ≤ u.data.length ∧ u.data.length ≤ 300))) kept out := by
  rcases processRecs_ok dest region recs out h with ⟨kept, hfil, hsub, hall, hf2⟩
  exact ⟨kept, hsub, hall, hf2.imp (fun a b hab => mapRec_image_spec a b hab)⟩

/-- Witness for C4: a concrete filter/map run over three parsed elements
(one with a valid image kept verbatim, one dropped by the filter, one with a
non-`https` image replaced by the placeholder). -/
theorem c4_image_validation_witness :
    ∃ kept : List JValue, kept.Sublist recListKyoto ∧
      (∀ rec ∈ kept, recFilterPred "京都" "" rec = Except.ok true) ∧
      List.Forall₂ (fun rec v =>
        (∃ u : String, jsMemberOpt rec "image" = some (JValue.str u) ∧
            jsStartsWith u "https://" = true ∧ imageExtMatch u.data = true ∧
            15 ≤ u.data.length ∧ u.data.length ≤ 300 ∧
            lookupF (jsSpreadFields v) "image" = some (JValue.str u)) ∨
        (lookupF (jsSpreadFields v) "image" = some (JValue.str placeholderImage) ∧
          ∀ u : String, jsMemberOpt rec "image" = some (JValue.str u) →
            ¬(jsStartsWith u "https://" = true ∧ imageExtMatch u.data = true ∧
              15 ≤ u.data.length ∧ u.data.length ≤ 300))) kept
        [recGion,
         JValue.obj [("name", JValue.str "嵐山"),
           ("description", JValue.str "京都の景勝地"),
           ("image", JValue.str placeholderImage)]] :=
  c4_image_validation "京都" "" recListKyoto
    [recGion,
     JValue.obj [("name", JValue.str "嵐山"),
       ("description", JValue.str "京都の景勝地"),
       ("image", JValue.str placeholderImage)]] rfl

/-- Per-element frame property of the map callback: every spread field other
than `image` is looked up unchanged, and the output `image` field is either
the element's own original one or the placeholder. -/
theorem mapRec_frame_spec (rec v : JValue) (h : mapRecM rec = Except.ok v) :
    (∀ k : String, k ≠ "image" →
      lookupF (jsSpreadFields v) k = lookupF (jsSpreadFields rec) k) ∧
    (lookupF (jsSpreadFields v) "image" = lookupF (jsSpreadFields rec) "image" ∨
     lookupF (jsSpreadFields v) "image" = some (JValue.str placeholderImage)) := by
  have hnull : rec ≠ JValue.null := by
    intro he; subst he; rw [mapRecM_null] at h; exact Except.noConfusion h
  rw [mapRecM_ok rec hnull] at h
  have hv : v = JValue.obj (setField (jsSpreadFields rec) "image" (computedImage rec)) :=
    (Except.ok.inj h).symm
  subst hv
  constructor
  · intro k hk
    exact lookupF_setField_ne _ _ _ _ hk
  · have hself : lookupF
        (jsSpreadFields (JValue.obj (setField (jsSpreadFields rec) "image" (computedImage rec))))
        "image" = some (computedImage rec) := lookupF_setField_self _ _ _
    have hbridge : jsMemberOpt rec "image" = lookupF (jsSpreadFields rec) "image" :=
      jsMemberOpt_eq_spread_lookup rec "image" (by decide) (by decide)
    cases himg : jsMemberOpt rec "image" with
    | none => exact Or.inr (by rw [hself]; simp [computedImage, himg])
    | some iv =>
      cases iv with
      | str u =>
        cases hval : validImageStr u with
        | true =>
          refine Or.inl ?_
          rw [hself, ← hbridge, himg]
          simp [computedImage, himg, hval]
        | false => exact Or.inr (by rw [hself]; simp [computedImage, himg, hval])
      | null => exact Or.inr (by rw [hself]; simp [computedImage, himg])
      | bool b => exact Or.inr (by rw [hself]; simp [computedImage, himg])
      | num q => exact Or.inr (by rw [hself]; simp [computedImage, himg])
      | arr xs => exact Or.inr (by rw [hself]; simp [computedImage, himg])
      | obj fs => exact Or.inr (by rw [hself]; simp [computedImage, himg])

/-- C10: every element of the parsed recommendation array that survives the
destination/region filter is returned with all its own (spread-visible)
fields other than `image` unchanged — only the image field may be rewritten,
and only to the placeholder — and the relative order of surviving elements
is preserved. -/
theorem c10_only_image_rewritten (dest region : String) (recs out : List JValue)
    (h : processRecs dest region recs = Except.ok out) :
    ∃ kept : List JValue, kept.Sublist recs ∧
      (∀ rec ∈ kept, recFilterPred dest region rec = Except.ok true) ∧
      List.Forall₂ (fun rec v =>
        (∀ k : String, k ≠ "image" →
          lookupF (jsSpreadFields v) k = lookupF (jsSpreadFields rec) k) ∧
        (lookupF (jsSpreadFields v) "image" = lookupF (jsSpreadFields rec) "image" ∨
         lookupF (jsSpreadFields v) "image" = some (JValue.str placeholderImage)))
        kept out := by
  rcases processRecs_ok dest region recs out h with ⟨kept, hfil, hsub, hall, hf2⟩
  exact ⟨kept, hsub, hall, hf2.imp (fun a b hab => mapRec_frame_spec a b hab)⟩

/-- Witness for C10: the same concrete filter/map run; both surviving
elements keep every non-image field, in order. -/
theorem c10_only_image_rewritten_witness :
    ∃ kept : List JValue, kept.Sublist recListKyoto ∧
      (∀ rec ∈ kept, recFilterPred "京都" "" rec = Except.ok true) ∧
      List.Forall₂ (fun rec v =>
        (∀ k : String, k ≠ "image" →
          lookupF (jsSpreadFields v) k = lookupF (jsSpreadFields rec) k) ∧
        (lookupF (jsSpreadFields v) "image" = lookupF (jsSpreadFields rec) "image" ∨
         lookupF (jsSpreadFields v) "image" = some (JValue.str placeholderImage)))
        kept
        [recGion,
         JValue.obj [("name", JValue.str "嵐山"),
           ("description", JValue.str "京都の景勝地"),
           ("image", JValue.str placeholderImage)]] :=
  c10_only_image_rewritten "京都" "" recListKyoto
    [recGion,
     JValue.obj [("name", JValue.str "嵐山"),
       ("description", JValue.str "京都の景勝地"),
       ("image", JValue.str placeholderImage)]] rfl

/- ## Claim C2 -/

/-- Counterexample for C2: with the API key absent, plan generation does NOT
abort — the missing-key error is thrown inside the `try` block, caught like
any other error, and converted into the fallback: the caller receives the
mock plan with `success:false` and the configuration error's message. -/
theorem c2_counterexample_key_error_is_caught :
    (generateTravelPlan envNoKey tdPlain).success = false ∧
    (generateTravelPlan envNoKey tdPlain).data = generateMockPlan tdPlain ∧
    (generateTravelPlan envNoKey tdPlain).error = some "GEMINI_API_KEY is not defined" :=
  ⟨rfl, rfl, rfl⟩

/-- C2 (amended): when the API key is absent from the environment at first
use, the resulting configuration error is caught by the plan pipeline's
`catch` like every other error: the call returns the fallback mock plan with
`success:false` and the error message `GEMINI_API_KEY is not defined`. -/
theorem c2_amended_key_error_falls_back (env : Env) (td : TravelData)
    (hk : env.apiKey = none) :
    generateTravelPlan env td =
      { success := false, data := generateMockPlan td,
        error := some "GEMINI_API_KEY is not defined" } := by
  rw [generateTravelPlan, generateTravelPlanTry, getGenAIClient, hk]

/-- Witness for C2's amended statement at a concrete environment/input. -/
theorem c2_amended_key_error_falls_back_witness :
    generateTravelPlan envNoKey tdBudget5 =
      { success := false, data := generateMockPlan tdBudget5,
        error := some "GEMINI_API_KEY is not defined" } :=
  c2_amended_key_error_falls_back envNoKey tdBudget5 rfl

/- ## Claim C5 -/

/-- Counterexample for C5: a transport exception whose `Error.message` is
empty yields `success:false` and the mock plan, but the surfaced error
string is empty — the returned error string is exactly the thrown message,
not guaranteed non-empty. -/
theorem c5_counterexample_empty_error_message :
    generateTravelPlan envEmptyErr tdPlain =
      { success := false, data := generateMockPlan tdPlain, error := some "" } ∧
    ¬ ∃ e : String, (generateTravelPlan envEmptyErr tdPlain).error = some e ∧ e ≠ "" := by
  refine ⟨rfl, ?_⟩
  rintro ⟨e, he, hne⟩
  rw [show (generateTravelPlan envEmptyErr tdPlain).error = some "" from rfl] at he
  exact hne (Option.some.inj he).symm

/-- C5 (amended): when the model call throws (or the extracted candidate
fails to parse), the returned payload has `success:false`, a plan equal to
the Fallback Generator's deterministic output for the same preferences, and
an error string equal to the thrown error's message (non-empty whenever that
message is). -/
theorem c5_amended_fallback_on_failure (env : Env) (td : TravelData) :
    (∀ m : String, env.apiKey.isSome = true → env.modelText = Except.error m →
      generateTravelPlan env td =
        { success := false, data := generateMockPlan td, error := some m }) ∧
    (∀ t e : String, env.apiKey.isSome = true → env.modelText = Except.ok t →
      jsonParse (extractPlanJson t) = Except.error e →
      generateTravelPlan env td =
        { success := false, data := generateMockPlan td, error := some e }) := by
  constructor
  · intro m hk hm
    rcases Option.isSome_iff_exists.mp hk with ⟨key, hkey⟩
    rw [generateTravelPlan, generateTravelPlanTry, getGenAIClient, hkey, hm]
  · intro t e hk hm hp
    rcases Option.isSome_iff_exists.mp hk with ⟨key, hkey⟩
    rw [generateTravelPlan, generateTravelPlanTry, getGenAIClient, hkey, hm]
    simp only
    rw [hp]

/-- Witness for C5's amended statement: a concrete transport failure and a
concrete parse failure, each producing the fallback payload. -/
theorem c5_amended_fallback_on_failure_witness :
    generateTravelPlan envNetErr tdPlain =
      { success := false, data := generateMockPlan tdPlain, error := some "fetch failed" } ∧
    generateTravelPlan envNoJson tdPlain =
      { success := false, data := generateMockPlan tdPlain,
        error := some "Unexpected token in JSON" } :=
  ⟨(c5_amended_fallback_on_failure envNetErr tdPlain).1 "fetch failed" rfl rfl,
   (c5_amended_fallback_on_failure envNoJson tdPlain).2 "sorry, I cannot help"
     "Unexpected token in JSON" rfl rfl rfl⟩

/- ## Claim C6 -/

/-- C6: whenever any stage of recommendation generation fails — the model
call throwing, the extracted candidate failing to parse, or the parsed value
not being an array — the returned payload has `success:false`, an empty
recommendations list and an error message; no mock recommendations are ever
synthesized on this path. -/
theorem c6_recommendation_failure_shape (env : Env) (prefs : RecPrefs) :
    (∀ m : String, env.apiKey.isSome = true → env.modelText = Except.error m →
      generateRecommendations env prefs =
        { success := false, recommendations := [], error := some m }) ∧
    (∀ t e : String, env.apiKey.isSome = true → env.modelText = Except.ok t →
      jsonParse (extractRecsJson t) = Except.error e →
      generateRecommendations env prefs =
        { success := false, recommendations := [], error := some recListErrMsg }) ∧
    (∀ (t : String) (v : JValue), env.apiKey.isSome = true →
      env.modelText = Except.ok t → jsonParse (extractRecsJson t) = Except.ok v →
      (∀ xs : List JValue, v ≠ JValue.arr xs) →
      generateRecommendations env prefs =
        { success := false, recommendations := [], error := some recListErrMsg }) := by
  refine ⟨?_, ?_, ?_⟩
  · intro m hk hm
    rcases Option.isSome_iff_exists.mp hk with ⟨key, hkey⟩
    rw [generateRecommendations, generateRecommendationsTry, getGenAIClient, hkey, hm]
  · intro t e hk hm hp
    rcases Option.isSome_iff_exists.mp hk with ⟨key, hkey⟩
    rw [generateRecommendations, generateRecommendationsTry, getGenAIClient, hkey, hm]
    simp only
    rw [hp]
  · intro t v hk hm hp hne
    rcases Option.isSome_iff_exists.mp hk with ⟨key, hkey⟩
    rw [generateRecommendations, generateRecommendationsTry, getGenAIClient, hkey, hm]
    simp only
    rw [hp]
    cases v with
    | arr xs => exact absurd rfl (hne xs)
    | null => rfl
    | bool b => rfl
    | num q => rfl
    | str s => rfl
    | obj fs => rfl

/-- Witness for C6: a concrete transport failure, a concrete parse failure
and a concrete parsed non-array, each yielding the empty-list failure
payload. -/
theorem c6_recommendation_failure_shape_witness :
    generateRecommendations envNetErr prefsKyoto =
      { success := false, recommendations := [], error := some "fetch failed" } ∧
    generateRecommendations envNoJson prefsKyoto =
      { success := false, recommendations := [], error := some recListErrMsg } ∧
    generateRecommendations envObjText prefsKyoto =
      { success := false, recommendations := [], error := some recListErrMsg } :=
  ⟨(c6_recommendation_failure_shape envNetErr prefsKyoto).1 "fetch failed" rfl rfl,
   (c6_recommendation_failure_shape envNoJson prefsKyoto).2.1 "sorry, I cannot help"
     "Unexpected token in JSON" rfl rfl rfl,
   (c6_recommendation_failure_shape envObjText prefsKyoto).2.2 "\x7b\x7d" (JValue.obj [])
     rfl rfl rfl (fun _ h => JValue.noConfusion h)⟩

/- ## Claim C8 -/

/-- C8: whenever strict JSON parsing of the extracted candidate succeeds,
plan generation returns `success:true` with the parsed value passed through
exactly as the plan, whatever its shape — no structural validation is
performed. -/
theorem c8_plan_parsed_value_trusted (env : Env) (td : TravelData)
    (t : String) (v : JValue)
    (hk : env.apiKey.isSome = true) (hm : env.modelText = Except.ok t)
    (hp : jsonParse (extractPlanJson t) = Except.ok v) :
    generateTravelPlan env td = { success := true, data := v, error := none } := by
  rcases Option.isSome_iff_exists.mp hk with ⟨key, hkey⟩
  rw [generateTravelPlan, generateTravelPlanTry, getGenAIClient, hkey, hm]
  simp only
  rw [hp]

/-- Witness for C8: a model answer consisting of an empty JSON object — a
value with none of the expected plan fields — is returned untouched with
`success:true`. -/
theorem c8_plan_parsed_value_trusted_witness :
    generateTravelPlan envObjText tdPlain =
      { success := true, data := JValue.obj [], error := none } :=
  c8_plan_parsed_value_trusted envObjText tdPlain "\x7b\x7d" (JValue.obj []) rfl rfl rfl

/- ## Claim C9 -/

/-- Exact ceiling division cancels on exact multiples. -/
theorem ceilDivInt_mul_cancel (k b : Int) (hb : b ≠ 0) : ceilDivInt (k * b) b = k := by
  unfold ceilDivInt
  rw [show -(k * b) = (-k) * b by ring]
  rw [show Int.ediv ((-k) * b) b = (-k) * b / b from rfl]
  rw [Int.mul_ediv_cancel _ hb]
  ring

/-- C9: for every date range with end ≥ start, the prompt builder's day
count is inclusive of both endpoints (difference in days plus one) and the
night count is the day count minus one. -/
theorem c9_trip_length_inclusive (s e : String) (ds de : Int)
    (h1 : parseYMD s = some ds) (h2 : parseYMD e = some de) (_h3 : ds ≤ de) :
    promptDays s e = some (de - ds + 1, de - ds) := by
  rw [promptDays, h1, h2]
  simp only
  rw [ceilDivInt_mul_cancel (de - ds) 86400000 (by norm_num)]
  rw [show de - ds + 1 - 1 = de - ds by ring]

/-- Witness for C9: `2024-03-15` to `2024-03-17` is a 3-day / 2-night trip. -/
theorem c9_trip_length_inclusive_witness :
    promptDays "2024-03-15" "2024-03-17" = some (3, 2) := by
  have h := c9_trip_length_inclusive "2024-03-15" "2024-03-17" 19797 19799 rfl rfl
    (by norm_num)
  norm_num at h
  exact h

/- ## Claim C3 -/

/-- Counterexample for C3: with requested budget 5 (and a valid ordered date
range), the four rounded percentages are 2, 2, 1 and 1 — their sum 6
exceeds the budget, refuting `transportation + accommodation + food +
activities ≤ budget`.  (Checked against IEEE doubles: `Math.round(5*0.3)=2`,
`Math.round(5*0.4)=2`, `Math.round(5*0.2)=1`, `Math.round(5*0.1)=1`.) -/
theorem c3_counterexample_budget5 :
    parseYMD tdBudget5.startDate = some 19797 ∧
    parseYMD tdBudget5.endDate = some 19799 ∧
    mockBudget tdBudget5.budget = (2, 2, 1, 1) ∧
    ¬ ((((mockBudget tdBudget5.budget).1 + (mockBudget tdBudget5.budget).2.1 +
        (mockBudget tdBudget5.budget).2.2.1 + (mockBudget tdBudget5.budget).2.2.2 : Int) : ℚ)
        ≤ tdBudget5.budget) := by
  have hmb : mockBudget tdBudget5.budget = (2, 2, 1, 1) := by
    have h1 : jsRound ((5 : ℚ) * (3 / 10)) = 2 := by
      rw [jsRound, Int.floor_eq_iff]
      norm_num
    have h2 : jsRound ((5 : ℚ) * (4 / 10)) = 2 := by
      rw [jsRound, Int.floor_eq_iff]
      norm_num
    have h3 : jsRound ((5 : ℚ) * (2 / 10)) = 1 := by
      rw [jsRound, Int.floor_eq_iff]
      norm_num
    have h4 : jsRound ((5 : ℚ) * (1 / 10)) = 1 := by
      rw [jsRound, Int.floor_eq_iff]
      norm_num
    show (jsRound ((5 : ℚ) * (3 / 10)), jsRound ((5 : ℚ) * (4 / 10)),
      jsRound ((5 : ℚ) * (2 / 10)), jsRound ((5 : ℚ) * (1 / 10))) = (2, 2, 1, 1)
    rw [h1, h2, h3, h4]
  refine ⟨rfl, rfl, hmb, ?_⟩
  rw [hmb]
  show ¬ ((((2 : Int) + 2 + 1 + 1 : Int) : ℚ) ≤ (5 : ℚ))
  norm_num

/-- C3 (amended): for every input with a valid ordered date range, the
fallback budget breakdown sums to the requested budget up to the rounding
error of the four `Math.round` calls: the sum lies in
`(budget − 2, budget + 2]`; in particular it can exceed the budget (by at
most 2), so `sum ≤ budget` holds only up to that rounding slack. -/
theorem c3_amended_budget_sum_bounds (td : TravelData) (ds de : Int)
    (_h1 : parseYMD td.startDate = some ds) (_h2 : parseYMD td.endDate = some de)
    (_h3 : ds ≤ de) :
    td.budget - 2 <
      (((mockBudget td.budget).1 + (mockBudget td.budget).2.1 +
        (mockBudget td.budget).2.2.1 + (mockBudget td.budget).2.2.2 : Int) : ℚ) ∧
    (((mockBudget td.budget).1 + (mockBudget td.budget).2.1 +
        (mockBudget td.budget).2.2.1 + (mockBudget td.budget).2.2.2 : Int) : ℚ)
      ≤ td.budget + 2 := by
  have f1 : ((jsRound (td.budget * (3 / 10)) : Int) : ℚ) ≤ td.budget * (3 / 10) + 1 / 2 :=
    Int.floor_le _
  have f2 : ((jsRound (td.budget * (4 / 10)) : Int) : ℚ) ≤ td.budget * (4 / 10) + 1 / 2 :=
    Int.floor_le _
  have f3 : ((jsRound (td.budget * (2 / 10)) : Int) : ℚ) ≤ td.budget * (2 / 10) + 1 / 2 :=
    Int.floor_le _
  have f4 : ((jsRound (td.budget * (1 / 10)) : Int) : ℚ) ≤ td.budget * (1 / 10) + 1 / 2 :=
    Int.floor_le _
  have g1 : td.budget * (3 / 10) + 1 / 2 < ((jsRound (td.budget * (3 / 10)) : Int) : ℚ) + 1 :=
    Int.lt_floor_add_one _
  have g2 : td.budget * (4 / 10) + 1 / 2 < ((jsRound (td.budget * (4 / 10)) : Int) : ℚ) + 1 :=
    Int.lt_floor_add_one _
  have g3 : td.budget * (2 / 10) + 1 / 2 < ((jsRound (td.budget * (2 / 10)) : Int) : ℚ) + 1 :=
    Int.lt_floor_add_one _
  have g4 : td.budget * (1 / 10) + 1 / 2 < ((jsRound (td.budget * (1 / 10)) : Int) : ℚ) + 1 :=
    Int.lt_floor_add_one _
  simp only [mockBudget]
  constructor
  · push_cast
    linarith
  · push_cast
    linarith

/-- Witness for C3's amended statement at the concrete budget-5 input. -/
theorem c3_amended_budget_sum_bounds_witness :
    tdBudget5.budget - 2 <
      (((mockBudget tdBudget5.budget).1 + (mockBudget tdBudget5.budget).2.1 +
        (mockBudget tdBudget5.budget).2.2.1 + (mockBudget tdBudget5.budget).2.2.2 : Int) : ℚ) ∧
    (((mockBudget tdBudget5.budget).1 + (mockBudget tdBudget5.budget).2.1 +
        (mockBudget tdBudget5.budget).2.2.1 + (mockBudget tdBudget5.budget).2.2.2 : Int) : ℚ)
      ≤ tdBudget5.budget + 2 :=
  c3_amended_budget_sum_bounds tdBudget5 19797 19799 rfl rfl (by norm_num)

/- ## Claim C7 -/

/-- A head-character variant of the marker lemma, keeping the pattern
folded. -/
theorem splitFirstL_marker2 (pat : List Char) (c : Char) (hc : pat.head? = some c)
    (pre post : List Char) (h : c ∉ pre) :
    splitFirstL pat (pre ++ pat ++ post) = some (pre, post) := by
  cases pat with
  | nil => exact Option.noConfusion hc
  | cons p ps =>
    have hp : p = c := by simpa using hc
    subst hp
    exact splitFirstL_marker p ps pre post h

/-- A single-character pattern does not occur when the character is absent. -/
theorem hasSubL_single_eq_false (c : Char) (s : List Char) (h : c ∉ s) :
    hasSubL [c] s = false := by
  induction s with
  | nil => rfl
  | cons x xs ih =>
    simp only [List.mem_cons, not_or] at h
    have hx : (c == x) = false := beq_eq_false_iff_ne.mpr h.1
    simp [hasSubL, startsWithL, hx, ih h.2]

/-- Labelled-fence case of the extractor (the fence must carry the literal
`json` label): the capture is the inner text trimmed of adjacent
whitespace; when that capture is empty, `match[1] || match[0]` falls back to
the whole fenced match, backticks and label included. -/
theorem extractor_fence_case (oc cc : Char) (pre mid post : String)
    (hpre : backtickCh ∉ pre.data) (hmid : backtickCh ∉ mid.data) :
    extractJsonCandidate oc cc (pre ++ "```json" ++ mid ++ "```" ++ post) =
      if trimJsWs mid.data = [] then "```json" ++ mid ++ "```"
      else ⟨trimJsWs mid.data⟩ := by
  have hdata : (pre ++ "```json" ++ mid ++ "```" ++ post).data
      = pre.data ++ fenceOpenStr.data ++ (mid.data ++ fenceCloseStr.data ++ post.data) := by
    simp [fenceOpenStr, fenceCloseStr, List.append_assoc]
  rw [extractJsonCandidate, fenceMatchL, hdata]
  rw [splitFirstL_marker2 fenceOpenStr.data backtickCh (by decide) pre.data _ hpre]
  dsimp only
  rw [splitFirstL_marker2 fenceCloseStr.data backtickCh (by decide) mid.data post.data hmid]
  dsimp only
  by_cases hempty : trimJsWs mid.data = []
  · rw [if_pos hempty]
    rw [show (trimJsWs mid.data).isEmpty = true by rw [hempty]; rfl]
    rw [if_pos rfl]
    have hd : fenceOpenStr.data ++ mid.data ++ fenceCloseStr.data
        = ("```json" ++ mid ++ "```").data := by
      simp [fenceOpenStr, fenceCloseStr]
    rw [hd]
  · rw [if_neg hempty]
    have hne : (trimJsWs mid.data).isEmpty = false := by
      cases hv : trimJsWs mid.data with
      | nil => exact absurd hv hempty
      | cons a as => rfl
    rw [hne]
    rw [if_neg Bool.false_ne_true]

/-- Greedy-delimiter case: without a labelled fence, the candidate spans
from the first opening delimiter to the last closing delimiter. -/
theorem extractor_greedy_case (oc cc : Char) (pre mid post : String)
    (hfence : hasSubL fenceOpenStr.data (pre ++ ⟨[oc]⟩ ++ mid ++ ⟨[cc]⟩ ++ post).data = false)
    (hpre : oc ∉ pre.data) (hpost : cc ∉ post.data) :
    extractJsonCandidate oc cc (pre ++ ⟨[oc]⟩ ++ mid ++ ⟨[cc]⟩ ++ post) =
      ⟨oc :: (mid.data ++ [cc])⟩ := by
  rw [extractJsonCandidate, fenceMatchL, splitFirstL_eq_none _ _ hfence]
  dsimp only
  rw [braceMatchL]
  have hdata : (pre ++ ⟨[oc]⟩ ++ mid ++ ⟨[cc]⟩ ++ post).data
      = pre.data ++ [oc] ++ (mid.data ++ [cc] ++ post.data) := by
    simp [List.append_assoc]
  rw [hdata]
  rw [splitFirstL_marker2 [oc] oc rfl pre.data _ hpre]
  dsimp only
  have hrev : (mid.data ++ [cc] ++ post.data).reverse
      = post.data.reverse ++ [cc] ++ mid.data.reverse := by
    simp
  rw [hrev]
  rw [splitFirstL_marker2 [cc] cc rfl post.data.reverse mid.data.reverse
    (fun hm => hpost (List.mem_reverse.mp hm))]
  dsimp only
  rw [List.reverse_reverse]

/-- Neither-pattern case: the raw text is passed through unchanged. -/
theorem extractor_raw_case (oc cc : Char) (text : String)
    (hfence : hasSubL fenceOpenStr.data text.data = false)
    (hoc : oc ∉ text.data) :
    extractJsonCandidate oc cc text = text := by
  rw [extractJsonCandidate, fenceMatchL, splitFirstL_eq_none _ _ hfence]
  dsimp only
  rw [braceMatchL, splitFirstL_eq_none _ _ (hasSubL_single_eq_false oc text.data hoc)]

/-- Counterexample for C7: the fence label is NOT optional.  An unlabelled
triple-backtick fence is not recognized: with no brace/bracket pattern
present either, the whole raw text — not the fence's inner content
`hello` — is returned. -/
theorem c7_counterexample_unlabelled_fence :
    extractPlanJson "``` hello ```" = "``` hello ```" ∧
    "``` hello ```" ≠ "hello" :=
  ⟨rfl, by decide⟩

/-- C7 (amended): the Response Extractor prefers a fenced code block only
when it is triple-backtick delimited AND labelled `json` (the label is
required); it then returns the inner content trimmed of adjacent
whitespace — except that an empty capture makes it return the whole fenced
match including backticks and label.  Otherwise it returns the first greedy
brace-delimited (plans) or bracket-delimited (recommendations) substring,
spanning from the first opening to the last closing delimiter; if neither
pattern matches, the entire raw text is returned unchanged. -/
theorem c7_amended_extractor_behaviour :
    (∀ (oc cc : Char) (pre mid post : String),
      backtickCh ∉ pre.data → backtickCh ∉ mid.data →
      extractJsonCandidate oc cc (pre ++ "```json" ++ mid ++ "```" ++ post) =
        if trimJsWs mid.data = [] then "```json" ++ mid ++ "```"
        else ⟨trimJsWs mid.data⟩) ∧
    (∀ (oc cc : Char) (pre mid post : String),
      hasSubL fenceOpenStr.data (pre ++ ⟨[oc]⟩ ++ mid ++ ⟨[cc]⟩ ++ post).data = false →
      oc ∉ pre.data → cc ∉ post.data →
      extractJsonCandidate oc cc (pre ++ ⟨[oc]⟩ ++ mid ++ ⟨[cc]⟩ ++ post) =
        ⟨oc :: (mid.data ++ [cc])⟩) ∧
    (∀ (oc cc : Char) (text : String),
      hasSubL fenceOpenStr.data text.data = false → oc ∉ text.data →
      extractJsonCandidate oc cc text = text) :=
  ⟨extractor_fence_case, extractor_greedy_case, extractor_raw_case⟩

/-- Witness for C7's amended statement: a labelled fence whose trimmed
content is returned; a greedy bracket span; and a pattern-free text passed
through. -/
theorem c7_amended_extractor_behaviour_witness :
    extractJsonCandidate lbraceCh rbraceCh ("prose " ++ "```json" ++ " x " ++ "```" ++ "!") =
      (if trimJsWs " x ".data = [] then "```json" ++ " x " ++ "```"
       else ⟨trimJsWs " x ".data⟩) ∧
    extractJsonCandidate lbrackCh rbrackCh
        ("text " ++ ⟨[lbrackCh]⟩ ++ "1, 2" ++ ⟨[rbrackCh]⟩ ++ " tail") =
      ⟨lbrackCh :: ("1, 2".data ++ [rbrackCh])⟩ ∧
    extractJsonCandidate lbraceCh rbraceCh "no json here" = "no json here" :=
  ⟨c7_amended_extractor_behaviour.1 lbraceCh rbraceCh "prose " " x " "!"
      (by decide) (by decide),
   c7_amended_extractor_behaviour.2.1 lbrackCh rbrackCh "text " "1, 2" " tail"
      (by decide) (by decide) (by decide),
   c7_amended_extractor_behaviour.2.2 lbraceCh rbraceCh "no json here"
      (by decide) (by decide)⟩
